import Mathlib

/-!
Verification of the credential-bootstrap and request-handler contracts of a
small Express HTTP facade (src/server.js).  The repository contains two
variants of the server, separated by a document separator: variant 1
(lines 1-100) and variant 2 (lines 101-297).  Variant 2 carries the
secret-resolver and bootstrap logic; both variants carry the three HTTP
handlers.  JavaScript values flowing through the modelled code are JSON
values (they all come from JSON.parse, express.json or literals), so the
shallow embedding uses an inductive JSON type with rational numbers.
JavaScript numbers are modelled as rationals plus a NaN marker; formatting
and parsing of numbers model the decimal forms the payloads use.
-/

set_option maxHeartbeats 1000000

/-- JSON values as delivered by JSON.parse / express.json.  Objects are the
ordered own-enumerable-property lists of the parsed object (JSON.parse keeps
one entry per key, in first-occurrence order). -/
inductive Json where
  | null
  | bool (b : Bool)
  | num (q : ℚ)
  | str (s : String)
  | arr (xs : List Json)
  | obj (fs : List (String × Json))

/-- Result of the JavaScript Number() coercion: either NaN or a numeric
value (modelled as a rational; the payloads involved stay well inside the
exactly-representable doubles). -/
inductive JSNum where
  | nan
  | num (q : ℚ)
  deriving DecidableEq, Repr

/-- The constant 0.5, the confidence default of both intent handlers, built
in lowest terms so that kernel evaluation of comparisons against it never
needs rational normalization. -/
def half : ℚ := ⟨1, 2, by decide, Nat.coprime_one_left 2⟩

/-- Whitespace as stripped by String.prototype.trim (the ASCII part; the
exotic Unicode spaces never occur in the modelled payloads). -/
def jsWhitespace (c : Char) : Bool :=
  c = ' ' || c = '\t' || c = '\n' || c = '\r' || c = '\x0b' || c = '\x0c'

/-- String.prototype.trim: strip leading and trailing whitespace. -/
def jsTrim (s : String) : String :=
  ⟨((s.data.dropWhile jsWhitespace).reverse.dropWhile jsWhitespace).reverse⟩

/-- JavaScript truthiness of a JSON value: null, false, 0 and the empty
string are falsy; every object and array (including empty ones) is truthy. -/
def jsTruthy : Json → Bool
  | .null => false
  | .bool b => b
  | .num q => q != 0
  | .str s => s != ""
  | .arr _ => true
  | .obj _ => true

/-- Digits of the fractional part of a rational in `[0,1)`, produced by
repeated multiplication by 10; `fuel` bounds the number of digits (JS prints
at most 17 significant digits for a double). -/
def fracDigits : ℚ → Nat → String
  | _, 0 => ""
  | r, fuel + 1 =>
    if r = 0 then ""
    else
      let r10 := r * 10
      let d := r10.floor.toNat
      toString d ++ fracDigits (r10 - r10.floor) fuel

/-- Decimal rendering of a nonnegative rational. -/
def numToStringNonneg (q : ℚ) : String :=
  let ip := q.floor.toNat
  let fp := q - q.floor
  if fp = 0 then toString ip
  else toString ip ++ "." ++ fracDigits fp 17

/-- JavaScript String() of a number, modelled for the decimal values the
payloads use (the shortest-round-trip printing of arbitrary doubles is a
platform primitive and out of scope). -/
def numToString (q : ℚ) : String :=
  if q < 0 then "-" ++ numToStringNonneg (-q) else numToStringNonneg q

mutual

/-- JavaScript String() coercion of a JSON value: strings unchanged, numbers
printed in decimal, null and booleans by name, arrays comma-joined with null
elements rendered empty (Array.prototype.join), plain objects rendered as
the default object tag. -/
def jsToString : Json → String
  | .null => "null"
  | .bool b => if b then "true" else "false"
  | .num q => numToString q
  | .str s => s
  | .arr xs => String.intercalate "," (jsToStringList xs)
  | .obj _ => "[object Object]"

/-- Element-wise String() used by Array.prototype.join: null elements become
the empty string, others are String()-coerced. -/
def jsToStringList : List Json → List String
  | [] => []
  | x :: xs =>
    (match x with
     | .null => ""
     | y => jsToString y) :: jsToStringList xs

end

/-- Value of a list of decimal digit characters; `none` if a non-digit
appears.  The empty list yields 0 (callers rule out the empty-empty case). -/
def digitsVal : List Char → Option Nat :=
  fun cs =>
    cs.foldl
      (fun acc c =>
        acc.bind fun n => if c.isDigit then some (10 * n + (c.toNat - 48)) else none)
      (some 0)

/-- Parse an unsigned decimal literal (digits, optionally with one decimal
point; at least one digit overall), as accepted by the JS ToNumber
conversion on the payloads in play. -/
def parseUnsignedDec (cs : List Char) : Option ℚ :=
  match cs.span (· ≠ '.') with
  | (intPart, []) =>
    if intPart.isEmpty then none
    else (digitsVal intPart).map (fun n => (n : ℚ))
  | (intPart, _dot :: fracPart) =>
    if fracPart.contains '.' then none
    else if intPart.isEmpty && fracPart.isEmpty then none
    else do
      let i ← if intPart.isEmpty then some 0 else digitsVal intPart
      let f ← if fracPart.isEmpty then some 0 else digitsVal fracPart
      some ((i : ℚ) + (f : ℚ) / ((10 : ℚ) ^ fracPart.length))

/-- JavaScript ToNumber on a string: trimmed; empty means 0; otherwise an
optionally signed decimal literal, anything else NaN.  (The exotic Infinity
and hex forms never occur in the modelled payloads.) -/
def strToNumber (s : String) : JSNum :=
  let t := jsTrim s
  if t = "" then .num 0
  else
    match t.toList with
    | '-' :: rest =>
      match parseUnsignedDec rest with
      | some q => .num (-q)
      | none => .nan
    | '+' :: rest =>
      match parseUnsignedDec rest with
      | some q => .num q
      | none => .nan
    | rest =>
      match parseUnsignedDec rest with
      | some q => .num q
      | none => .nan

/-- JavaScript Number() coercion of a JSON value.  Objects and arrays go
through ToPrimitive, i.e. their String() rendering, which yields 0 for an
empty array, the element coercion for singletons, and NaN for plain
objects. -/
def jsToNumber : Json → JSNum
  | .null => .num 0
  | .bool b => .num (if b then 1 else 0)
  | .num q => .num q
  | .str s => strToNumber s
  | .arr xs => strToNumber (jsToString (.arr xs))
  | .obj fs => strToNumber (jsToString (.obj fs))

/-- First-match lookup in an object's property list (JSON.parse-produced
objects carry one entry per key). -/
def lookupField (fs : List (String × Json)) (k : String) : Option Json :=
  (fs.find? (fun p => p.1 = k)).map (fun p => p.2)

/-- Decimal value of a string of digit characters, `none` when the string
is empty or holds a non-digit.  Used to recognize array-index property
names (the canonical-form check is done by the caller). -/
def strDigitsVal (k : String) : Option Nat :=
  match k.data with
  | [] => none
  | cs => if cs.all Char.isDigit then digitsVal cs else none

/-- JavaScript property read `v[k]` for the property names the code uses:
object fields, array `length` and canonical index properties, string
`length` and canonical index properties; primitives have none.  Absent
properties are `none` (undefined). -/
def jsonGetProp : Json → String → Option Json
  | .obj fs, k => lookupField fs k
  | .arr xs, k =>
    if k = "length" then some (.num xs.length)
    else
      match strDigitsVal k with
      | some i => if h : i < xs.length ∧ toString i = k then some (xs.get ⟨i, h.1⟩) else none
      | none => none
  | .str s, k =>
    if k = "length" then some (.num s.length)
    else
      match strDigitsVal k with
      | some i =>
        if i < s.length ∧ toString i = k then some (.str (String.singleton (s.data.getD i ' ')))
        else none
      | none => none
  | _, _ => none

/-- Object.prototype.hasOwnProperty.call(v, k): the model has no prototype
chains, so own-property presence coincides with the property read being
defined. -/
def jsonHasOwn (v : Json) (k : String) : Bool :=
  (jsonGetProp v k).isSome

/-- Own enumerable properties in Object.keys order: an object's field list,
an array's index-value pairs; primitives (including strings, whose typeof is
not "object") contribute none to the loops that use this. -/
def ownEnumerable : Json → List (String × Json)
  | .obj fs => fs
  | .arr xs => (xs.enum).map (fun p => (toString p.1, p.2))
  | _ => []

/-! ## Secret Resolver (variant 2, src/server.js lines 131-175)

`extractKeyFromBody` is translated from the source; `extractKeySpec` and
`extractKeySpecSeven` follow the specification text (for the refinement
comparison), the first with the six field names the claim lists, the second
with the seventh name `apiKey` that the source also scans. -/

/-- The candidate field names scanned by the source, in order
(src/server.js line 138). -/
def possibleFields : List String :=
  ["api_key", "apikey", "key", "token", "value", "secret", "apiKey"]

/-- First named candidate field, per the source loop: the field must be an
own property of a truthy candidate and hold a truthy value. -/
def namedFieldValue (fields : List String) (candidate : Json) : Option Json :=
  fields.findSome? fun f =>
    if jsTruthy candidate && jsonHasOwn candidate f then
      match jsonGetProp candidate f with
      | some v => if jsTruthy v then some v else none
      | none => none
    else none

/-- Fallback heuristic of the source: over a truthy candidate whose typeof
is "object", return the first own enumerable string value longer than 20
characters, trimmed. -/
def heuristicValue (candidate : Json) : Option String :=
  if jsTruthy candidate &&
      (match candidate with | .obj _ => true | .arr _ => true | _ => false) then
    (ownEnumerable candidate).findSome? fun p =>
      match p.2 with
      | .str s => if s.length > 20 then some (jsTrim s) else none
      | _ => none
  else none

/-- Candidate selection shared by the source and the claim: the first
element of a non-empty array body, otherwise the body itself. -/
def candidateOf : Json → Json
  | .arr (x :: _) => x
  | b => b

/-- Translation of extractKeyFromBody (src/server.js lines 131-154): falsy
bodies yield null; the candidate is the first element of a non-empty array
body, otherwise the body; the named fields are scanned first, the first
truthy one returned String()-coerced and trimmed; otherwise the length
heuristic runs; otherwise null. -/
def extractKeyFromBody (body : Json) : Option String :=
  if jsTruthy body then
    match namedFieldValue possibleFields (candidateOf body) with
    | some v => some (jsTrim (jsToString v))
    | none => heuristicValue (candidateOf body)
  else none

/-- Modelled from the claim wording: the named scan keeps the first present,
truthy value of the listed fields; presence is an own-property read being
defined. -/
def specNamedScan (fields : List String) (candidate : Json) : Option Json :=
  fields.findSome? fun f =>
    match jsonGetProp candidate f with
    | some v => if jsTruthy v then some v else none
    | none => none

/-- Modelled from the claim wording: the first string-valued field of the
candidate whose length exceeds 20 characters, trimmed. -/
def specHeuristic (candidate : Json) : Option String :=
  (ownEnumerable candidate).findSome? fun p =>
    match p.2 with
    | .str s => if s.length > 20 then some (jsTrim s) else none
    | _ => none

/-- Field extraction as claim C1 words it: candidate selection, then the
six-name priority scan, then the length heuristic, else absent. -/
def extractKeySpec (body : Json) : Option String :=
  match specNamedScan ["api_key", "apikey", "key", "token", "value", "secret"]
      (candidateOf body) with
  | some v => some (jsTrim (jsToString v))
  | none => specHeuristic (candidateOf body)

/-- Field extraction as the amended claim words it: identical to
`extractKeySpec` except that the priority list also ends with `apiKey`. -/
def extractKeySpecSeven (body : Json) : Option String :=
  match specNamedScan possibleFields (candidateOf body) with
  | some v => some (jsTrim (jsToString v))
  | none => specHeuristic (candidateOf body)

/-- Outcome of one GET against the remote secret endpoint, as observed by
the retry loop: the fetch may throw (network error or the 8s abort), or
return a response with an HTTP success flag and a body (none when
res.json() fails to parse). -/
inductive FetchOutcome where
  | fetchError
  | response (ok : Bool) (body : Option Json)

/-- One attempt of the retry loop (src/server.js lines 159-168): a thrown
fetch, a non-success status, an unparseable body, and an extracted key that
is falsy (the `if (key)` check) all land in the catch; only a truthy
extracted key is returned. -/
def attemptKey : FetchOutcome → Option String
  | .fetchError => none
  | .response ok body =>
    if ok then
      match body with
      | some b =>
        match extractKeyFromBody b with
        | some k => if k != "" then some k else none
        | none => none
      | none => none
    else none

/-- Observable trace of one run of the resolver: how many GET requests were
issued, the inter-attempt delays awaited, and the returned value. -/
structure ResolverRun where
  requests : Nat
  waits : List Nat
  result : Option String
  deriving DecidableEq, Repr

/-- The retry loop body of loadKeyFromMockAPI for attempts
`attempt, attempt+1, ..., maxAttempts`: on a successful attempt the key is
returned at once; on a failed attempt the loop waits delayMs when attempts
remain and retries, and yields null after the last attempt. -/
def loadKeyGo (env : Nat → FetchOutcome) (maxAttempts delayMs attempt : Nat) :
    ResolverRun :=
  if attempt ≤ maxAttempts then
    match attemptKey (env attempt) with
    | some k => ⟨1, [], some k⟩
    | none =>
      if attempt < maxAttempts then
        let rest := loadKeyGo env maxAttempts delayMs (attempt + 1)
        ⟨rest.requests + 1, delayMs :: rest.waits, rest.result⟩
      else ⟨1, [], none⟩
  else ⟨0, [], none⟩
termination_by maxAttempts + 1 - attempt

/-- Translation of loadKeyFromMockAPI (src/server.js lines 157-175): the
for-loop starts at attempt 1; `env i` is what the i-th GET observes.  The
source catches every failure inside the loop and falls off the loop to
`return null`, so the model is total and never raises. -/
def loadKeyFromMockAPI (env : Nat → FetchOutcome) (maxAttempts delayMs : Nat) :
    ResolverRun :=
  loadKeyGo env maxAttempts delayMs 1

/-- Outcome of the credential bootstrap: a key with its source tag, or
process termination with an exit code. -/
inductive KeyInit where
  | ok (key : String) (source : String)
  | halt (code : Nat)
  deriving DecidableEq, Repr

/-- The env-fallback tail of initKey (src/server.js lines 194-204): a truthy
OPENAI_API_KEY environment value is used with source "env"; otherwise the
process exits with status 1. -/
def initKeyFallback : Option String → KeyInit
  | some v => if v != "" then .ok v "env" else .halt 1
  | none => .halt 1

/-- Translation of initKey (src/server.js lines 178-205): a truthy resolver
result is installed with source "mockapi"; otherwise the env fallback runs.
`remote` is the value returned by loadKeyFromMockAPI, `envKey` the
OPENAI_API_KEY environment variable (none when unset). -/
def initKey (remote envKey : Option String) : KeyInit :=
  match remote with
  | some k => if k != "" then .ok k "mockapi" else initKeyFallback envKey
  | none => initKeyFallback envKey

/-! ## Request handlers

Both variants validate the intent request the same way; they differ after
the upstream chat call: variant 2 (lines 246-286) parses defensively, runs
the whitelist and coerces the confidence, while variant 1 (lines 62-95)
mutates the parsed object in place with no whitelist.  The upstream call is
an external collaborator: it either throws, or yields a message content
whose JSON.parse result the model carries directly (`none` standing for
content that does not parse as JSON; variant 2 substitutes "\x7b\x7d" for a
missing content, which parses to the empty object). -/

/-- Upstream chat-completion outcome as seen by the handlers. -/
inductive Upstream where
  | throws
  | content (parse : Option Json)

/-- A 200 response of the variant-2 intent handler. -/
structure IntentOk2 where
  command : Option String
  confidence : ℚ
  source : String
  deriving DecidableEq, Repr

/-- Response of the variant-2 intent handler. -/
inductive IntentResp2 where
  | ok (r : IntentOk2)
  | err (status : Nat) (code : String)
  deriving DecidableEq, Repr

/-- Response of the variant-1 intent handler: a 200 with a JSON body, or an
error status with a code. -/
inductive IntentResp1 where
  | ok (body : Json)
  | err (status : Nat) (code : String)

/-- JavaScript property assignment `o[k] = v` on an object's field list:
an existing key is overwritten in place, a new key is appended. -/
def setField (fs : List (String × Json)) (k : String) (v : Json) :
    List (String × Json) :=
  if fs.any (fun p => p.1 = k) then
    fs.map (fun p => if p.1 = k then (k, v) else p)
  else fs ++ [(k, v)]

/-- The shared request validation (lines 64-67 and 248-251): req.body is
defaulted to the empty object when falsy, text must be a string, commands a
non-empty array. -/
def intentRequestOk (body : Json) : Bool :=
  let b := if jsTruthy body then body else .obj []
  (match jsonGetProp b "text" with
   | some (.str _) => true
   | _ => false) &&
  (match jsonGetProp b "commands" with
   | some (.arr (_ :: _)) => true
   | _ => false)

/-- The commands array of a validated request body. -/
def intentCommands (body : Json) : List Json :=
  let b := if jsTruthy body then body else .obj []
  match jsonGetProp b "commands" with
  | some (.arr cs) => cs
  | _ => []

/-- The command kept by the variant-2 handler: the parsed command of the
upstream object (absent becoming null through the destructuring default)
survives only when it is a string in the whitelist (the string-coercions of
the request commands); everything else becomes null. -/
def intentCval (whitelist : List String) (out : Json) : Option String :=
  match (jsonGetProp out "command").getD .null with
  | .str s => if whitelist.contains s then some s else none
  | _ => none

/-- The confidence computed by the variant-2 handler: the parsed confidence
of the upstream object (absent becoming 0.5 through the destructuring
default) is Number()-coerced, and any falsy coercion (NaN or 0) is replaced
by 0.5. -/
def intentQval (out : Json) : ℚ :=
  match jsToNumber ((jsonGetProp out "confidence").getD (.num half)) with
  | .nan => half
  | .num q => if q = 0 then half else q

/-- Translation of the variant-2 intent handler (lines 246-286).  After
validation and the upstream call: an unparseable content is replaced by the
empty object (inner catch); destructuring the parse result throws on null
(caught by the outer catch as intent_failed); otherwise the response is 200
with the whitelisted command and coerced confidence. -/
def intentHandler2 (body : Json) (up : Upstream) : IntentResp2 :=
  if intentRequestOk body then
    match up with
    | .throws => .err 500 "intent_failed"
    | .content p =>
      match p.getD (.obj []) with
      | .null => .err 500 "intent_failed"
      | o => .ok ⟨intentCval ((intentCommands body).map jsToString) o, intentQval o, "openai"⟩
  else .err 400 "bad_request"

/-- The in-place mutation of the parsed object performed by the variant-1
handler: set source, replace a non-numeric confidence by 0.5, replace a
non-string command by null.  No whitelist check. -/
def v1Fields (fs : List (String × Json)) : List (String × Json) :=
  let f1 := setField fs "source" (.str "openai")
  let f2 :=
    match lookupField f1 "confidence" with
    | some (.num _) => f1
    | _ => setField f1 "confidence" (.num half)
  match lookupField f2 "command" with
  | some (.str _) => f2
  | _ => setField f2 "command" .null

/-- Translation of the variant-1 intent handler (lines 62-95).  JSON.parse
runs unguarded, so unparseable content throws to the outer catch; the
parsed object is mutated in place with no whitelist check; assigning a
property on a parsed primitive or null throws in strict module code (outer
catch); on a parsed array the added named properties are dropped by the
JSON serialization of the response. -/
def intentHandler1 (body : Json) (up : Upstream) : IntentResp1 :=
  if intentRequestOk body then
    match up with
    | .throws => .err 500 "intent_failed"
    | .content none => .err 500 "intent_failed"
    | .content (some out) =>
      match out with
      | .obj fs => .ok (.obj (v1Fields fs))
      | .arr xs => .ok (.arr xs)
      | _ => .err 500 "intent_failed"
  else .err 400 "bad_request"

/-- The request-validity predicate exactly as claim C7 words it, over the
raw request body: text is a string field and commands a non-empty array
field. -/
def specIntentValid (body : Json) : Prop :=
  (∃ s, jsonGetProp body "text" = some (.str s)) ∧
  (∃ c cs, jsonGetProp body "commands" = some (.arr (c :: cs)))

/-- The intent request body used throughout the theorems: an object with a
text string and a commands array. -/
def mkIntentBody (t : String) (cs : List Json) : Json :=
  .obj [("text", .str t), ("commands", .arr cs)]

/-- Translation of the variant-2 health handler (lines 222-224): keySource
is the bootstrap tag when truthy, else null.  The port is carried as the
JSON value the source would serialize. -/
def healthHandler2 (port : Json) (keySource : Option String) : Json :=
  .obj [("ok", .bool true), ("port", port),
    ("keySource",
      match keySource with
      | some s => if s != "" then .str s else .null
      | none => .null)]

/-- Translation of the variant-1 health handler (lines 29-35): it reports
hasKey, the truthiness of the OPENAI_API_KEY environment value, and no
keySource field. -/
def healthHandler1 (port : Json) (envKey : Option String) : Json :=
  .obj [("ok", .bool true), ("port", port),
    ("hasKey", .bool (match envKey with | some s => s != "" | none => false))]

/-- Outcome of the guarded section of the transcription handler after a file
is present: the temp-file write may throw, the provider call may throw, or
the provider returns a result whose text field may be missing. -/
inductive TranscribeOutcome where
  | writeThrows
  | callThrows
  | result (text : Option String)

/-- Response of the transcription handler. -/
inductive TranscribeResp where
  | ok (text : String)
  | err (status : Nat) (code : String)
  deriving DecidableEq, Repr

/-- Observable trace of one transcription request: the response, the number
of temp-file write attempts, and the number of provider calls. -/
structure TranscribeRun where
  response : TranscribeResp
  tempWrites : Nat
  serviceCalls : Nat
  deriving DecidableEq, Repr

/-- Translation of the transcription handler, identical in both variants
(lines 40-57 and 227-243): without an uploaded `audio` file it returns 400
no_audio at once; otherwise it writes the buffer to the fixed temp path,
calls the provider, and answers with the produced text, the empty string
standing in for a falsy one; any throw inside the try yields 500
transcription_failed. -/
def transcribeHandler (file : Option (List Nat)) (outcome : TranscribeOutcome) :
    TranscribeRun :=
  match file with
  | none => ⟨.err 400 "no_audio", 0, 0⟩
  | some _ =>
    match outcome with
    | .writeThrows => ⟨.err 500 "transcription_failed", 1, 0⟩
    | .callThrows => ⟨.err 500 "transcription_failed", 1, 1⟩
    | .result t =>
      ⟨.ok (match t with | some s => if s != "" then s else "" | none => ""), 1, 1⟩

/-! ## Helper lemmas -/

theorem namedFieldValue_falsy (fields : List String) (candidate : Json)
    (h : jsTruthy candidate = false) :
    namedFieldValue fields candidate = none := by
  induction fields with
  | nil => rfl
  | cons f fs ih =>
    simp only [namedFieldValue, List.findSome?] at ih ⊢
    rw [h]
    simp [ih]

theorem specNamedScan_elem_eq (candidate : Json) (f : String) :
    (if jsTruthy candidate && jsonHasOwn candidate f then
      match jsonGetProp candidate f with
      | some v => if jsTruthy v then some v else none
      | none => none
     else none) =
    (match jsonGetProp candidate f with
     | some v => if jsTruthy v then some v else none
     | none => none) := by
  unfold jsonHasOwn
  cases ht : jsTruthy candidate with
  | true =>
    cases hg : jsonGetProp candidate f with
    | none => simp [hg]
    | some v => simp [hg]
  | false =>
    cases candidate with
    | null => rfl
    | bool b => rfl
    | num q => rfl
    | str s =>
      have hs : s = "" := by
        simp [jsTruthy] at ht
        exact ht
      subst hs
      simp only [jsonGetProp, Bool.false_and, if_neg]
      by_cases hl : f = "length"
      · subst hl
        simp [jsTruthy]
      · simp only [if_neg hl]
        cases hn : strDigitsVal f with
        | none => simp [hn]
        | some i => simp [hn]
    | arr xs => simp [jsTruthy] at ht
    | obj fs => simp [jsTruthy] at ht

theorem findSome?_ext {α β : Type} (f g : α → Option β) (h : ∀ a, f a = g a) :
    ∀ l : List α, l.findSome? f = l.findSome? g := by
  intro l
  induction l with
  | nil => rfl
  | cons x xs ih => simp [List.findSome?, h x, ih]

theorem namedFieldValue_eq_specNamedScan (fields : List String) (candidate : Json) :
    namedFieldValue fields candidate = specNamedScan fields candidate :=
  findSome?_ext _ _ (fun f => specNamedScan_elem_eq candidate f) fields

theorem heuristicValue_eq_specHeuristic (candidate : Json) :
    heuristicValue candidate = specHeuristic candidate := by
  cases candidate with
  | null => rfl
  | bool b => cases b <;> rfl
  | num q =>
    unfold heuristicValue specHeuristic
    simp [ownEnumerable, Bool.and_false]
  | str s =>
    unfold heuristicValue specHeuristic
    simp [ownEnumerable, Bool.and_false]
  | arr xs => rfl
  | obj fs => rfl

theorem specHeuristic_falsy (candidate : Json) (h : jsTruthy candidate = false) :
    specHeuristic candidate = none := by
  cases candidate with
  | null => rfl
  | bool b => rfl
  | num q => rfl
  | str s => rfl
  | arr xs => simp [jsTruthy] at h
  | obj fs => simp [jsTruthy] at h

theorem specNamedScan_falsy (fields : List String) (candidate : Json)
    (h : jsTruthy candidate = false) :
    specNamedScan fields candidate = none := by
  rw [← namedFieldValue_eq_specNamedScan]
  exact namedFieldValue_falsy fields candidate h

theorem candidateOf_falsy (body : Json) (h : jsTruthy body = false) :
    jsTruthy (candidateOf body) = false := by
  cases body with
  | null => exact h
  | bool b => simpa [candidateOf] using h
  | num q => simpa [candidateOf] using h
  | str s => simpa [candidateOf] using h
  | arr xs => simp [jsTruthy] at h
  | obj fs => simp [jsTruthy] at h

/-- Claim C1, counterexample: on the object with the single field `apiKey`
holding the short string "x", the source extraction returns "x" via the
seventh candidate name, while the extraction described by the claim (six
candidate names, then the length-over-20 heuristic) returns absent. -/
theorem extractKey_apiKey_cx :
    extractKeyFromBody (Json.obj [("apiKey", Json.str "x")]) = some "x" ∧
    extractKeySpec (Json.obj [("apiKey", Json.str "x")]) = none := by
  constructor <;> decide

/-- Claim C1, amended: field extraction operates on the first element of a
non-empty array body and on the body itself otherwise, scans the candidate
field names api_key, apikey, key, token, value, secret, apiKey in priority
order and returns the first present, truthy value string-coerced and
trimmed; otherwise the first string-valued field longer than 20 characters,
trimmed; otherwise absent.  Stated as: the source extraction coincides with
the spec-worded extraction carrying the seven-name list, on every body. -/
theorem extractKey_matches_specSeven (body : Json) :
    extractKeyFromBody body = extractKeySpecSeven body := by
  unfold extractKeyFromBody extractKeySpecSeven
  rw [namedFieldValue_eq_specNamedScan, heuristicValue_eq_specHeuristic]
  cases hb : jsTruthy body with
  | true => simp
  | false =>
    have hc : jsTruthy (candidateOf body) = false := candidateOf_falsy body hb
    rw [specNamedScan_falsy _ _ hc, specHeuristic_falsy _ hc]
    simp

theorem attemptKey_ne_empty (o : FetchOutcome) (k : String)
    (h : attemptKey o = some k) : k ≠ "" := by
  cases o with
  | fetchError => simp [attemptKey] at h
  | response hok body =>
    unfold attemptKey at h
    cases hok with
    | false => simp at h
    | true =>
      cases body with
      | none => simp at h
      | some b =>
        simp only [if_pos] at h
        cases hx : extractKeyFromBody b with
        | none => rw [hx] at h; simp at h
        | some k0 =>
          rw [hx] at h
          by_cases hk0 : k0 = ""
          · subst hk0; simp at h
          · have hne : (k0 != "") = true := by simpa using hk0
            have hkk : k0 = k := by simpa [hne] using h
            exact hkk ▸ hk0

theorem loadKeyGo_all_fail (env : Nat → FetchOutcome) (maxA d : Nat) :
    ∀ n attempt, maxA - attempt = n → 1 ≤ attempt → attempt ≤ maxA →
      (∀ i, attempt ≤ i → i ≤ maxA → attemptKey (env i) = none) →
      loadKeyGo env maxA d attempt =
        ⟨maxA + 1 - attempt, List.replicate (maxA - attempt) d, none⟩ := by
  intro n
  induction n with
  | zero =>
    intro attempt h0 h1 h2 hfail
    have heq : attempt = maxA := by omega
    rw [loadKeyGo, hfail attempt le_rfl h2, if_pos h2]
    have hnlt : ¬attempt < maxA := by omega
    rw [if_neg hnlt]
    have e1 : maxA + 1 - attempt = 1 := by omega
    have e2 : maxA - attempt = 0 := by omega
    rw [e1, e2]
    rfl
  | succ n ih =>
    intro attempt h0 h1 h2 hfail
    have hlt : attempt < maxA := by omega
    rw [loadKeyGo, hfail attempt le_rfl h2, if_pos h2, if_pos hlt]
    rw [ih (attempt + 1) (by omega) (by omega) (by omega)
      (fun i hi1 hi2 => hfail i (by omega) hi2)]
    have e2 : maxA - attempt = (maxA - (attempt + 1)) + 1 := by omega
    rw [e2, List.replicate_succ]
    simp [ResolverRun.mk.injEq]
    omega

theorem loadKeyGo_result_spec (env : Nat → FetchOutcome) (maxA d : Nat) :
    ∀ n attempt, maxA + 1 - attempt = n →
      (loadKeyGo env maxA d attempt).result = none ∨
        ∃ s, (loadKeyGo env maxA d attempt).result = some s ∧ s ≠ "" := by
  intro n
  induction n with
  | zero =>
    intro attempt h0
    have : ¬attempt ≤ maxA := by omega
    rw [loadKeyGo, if_neg this]
    exact Or.inl rfl
  | succ n ih =>
    intro attempt h0
    rw [loadKeyGo]
    by_cases hle : attempt ≤ maxA
    · rw [if_pos hle]
      cases hk : attemptKey (env attempt) with
      | some k => exact Or.inr ⟨k, rfl, attemptKey_ne_empty _ _ hk⟩
      | none =>
        by_cases hlt : attempt < maxA
        · rw [if_pos hlt]
          simpa using ih (attempt + 1) (by omega)
        · rw [if_neg hlt]
          exact Or.inl rfl
    · rw [if_neg hle]
      exact Or.inl rfl

/-! ## Claim C2 -/

/-- Claim C2, confirmed: when every attempt fails (thrown fetch, non-success
status, unparseable body, or a body yielding no usable key), the resolver
issues exactly maxAttempts sequential requests, waits delayMs between
consecutive attempts (maxAttempts - 1 waits), and returns absent.  The
model is a total function, reflecting that the source catches every failure
inside the loop and never raises. -/
theorem loadKey_retry_exhaustion (env : Nat → FetchOutcome)
    (maxAttempts delayMs : Nat) (hpos : 1 ≤ maxAttempts)
    (hfail : ∀ i, 1 ≤ i → i ≤ maxAttempts → attemptKey (env i) = none) :
    loadKeyFromMockAPI env maxAttempts delayMs =
      ⟨maxAttempts, List.replicate (maxAttempts - 1) delayMs, none⟩ := by
  unfold loadKeyFromMockAPI
  rw [loadKeyGo_all_fail env maxAttempts delayMs (maxAttempts - 1) 1 (by omega)
    le_rfl hpos hfail]
  have e1 : maxAttempts + 1 - 1 = maxAttempts := by omega
  rw [e1]

/-- Witness for claim C2: with every fetch throwing and maxAttempts 3,
delay 1500, the run issues 3 requests, waits twice, and returns absent. -/
theorem loadKey_retry_exhaustion_witness :
    loadKeyFromMockAPI (fun _ => FetchOutcome.fetchError) 3 1500 =
      ⟨3, [1500, 1500], none⟩ := by
  have h := loadKey_retry_exhaustion (fun _ => FetchOutcome.fetchError) 3 1500
    (by decide) (fun i h1 h2 => rfl)
  simpa using h

/-! ## Claim C10 -/

/-- Claim C10, confirmed: the resolver result is absent or a non-empty
string, for every sequence of remote responses, every maxAttempts and every
delay; the loop rejects falsy extracted keys, so the bootstrap can never
install an empty-string credential from the remote source. -/
theorem loadKey_result_nonempty (env : Nat → FetchOutcome)
    (maxAttempts delayMs : Nat) :
    (loadKeyFromMockAPI env maxAttempts delayMs).result = none ∨
      ∃ s, (loadKeyFromMockAPI env maxAttempts delayMs).result = some s ∧ s ≠ "" :=
  loadKeyGo_result_spec env maxAttempts delayMs (maxAttempts + 1 - 1) 1 rfl

/-! ## Claim C3 -/

/-- Claim C3, counterexample: with the resolver absent and the environment
fallback present but holding the empty string, the bootstrap exits with
status 1; the claim as stated would have it install the present fallback
value with the local-fallback tag. -/
theorem initKey_empty_env_cx :
    initKey none (some "") = KeyInit.halt 1 ∧
    initKey none (some "") ≠ KeyInit.ok "" "env" := by
  constructor
  · rfl
  · decide

/-- Claim C3, amended: a non-empty resolver credential is installed with
source "mockapi" (remote-origin); failing that, a present AND NON-EMPTY
environment fallback is installed with source "env" (local-fallback);
failing that the process exits with status 1; and in no case does the
service proceed with an empty credential or a source other than these
two. -/
theorem initKey_fallback_order (remote envKey : Option String) :
    (∀ k, remote = some k → k ≠ "" → initKey remote envKey = .ok k "mockapi") ∧
    ((remote = none ∨ remote = some "") →
      ∀ v, envKey = some v → v ≠ "" → initKey remote envKey = .ok v "env") ∧
    ((remote = none ∨ remote = some "") → (envKey = none ∨ envKey = some "") →
      initKey remote envKey = .halt 1) ∧
    (∀ k s, initKey remote envKey = .ok k s →
      k ≠ "" ∧ (s = "mockapi" ∨ s = "env")) := by
  refine ⟨?_, ?_, ?_, ?_⟩
  · intro k hr hk
    subst hr
    have : (k != "") = true := by simpa using hk
    simp [initKey, this]
  · intro hr v he hv
    subst he
    have hvb : (v != "") = true := by simpa using hv
    cases hr with
    | inl h => subst h; simp [initKey, initKeyFallback, hvb]
    | inr h => subst h; simp [initKey, initKeyFallback, hvb]
  · intro hr he
    cases hr with
    | inl h =>
      subst h
      cases he with
      | inl h2 => subst h2; rfl
      | inr h2 => subst h2; rfl
    | inr h =>
      subst h
      cases he with
      | inl h2 => subst h2; rfl
      | inr h2 => subst h2; rfl
  · intro k s hok
    cases remote with
    | some r =>
      by_cases hr : r = ""
      · subst hr
        simp only [initKey] at hok
        cases envKey with
        | some v =>
          by_cases hv : v = ""
          · subst hv; simp [initKeyFallback] at hok
          · have hvb : (v != "") = true := by simpa using hv
            simp [initKeyFallback, hvb] at hok
            exact ⟨hok.1 ▸ hv, Or.inr hok.2.symm⟩
        | none => simp [initKeyFallback] at hok
      · have hrb : (r != "") = true := by simpa using hr
        simp [initKey, hrb] at hok
        exact ⟨hok.1 ▸ hr, Or.inl hok.2.symm⟩
    | none =>
      simp only [initKey] at hok
      cases envKey with
      | some v =>
        by_cases hv : v = ""
        · subst hv; simp [initKeyFallback] at hok
        · have hvb : (v != "") = true := by simpa using hv
          simp [initKeyFallback, hvb] at hok
          exact ⟨hok.1 ▸ hv, Or.inr hok.2.symm⟩
      | none => simp [initKeyFallback] at hok

/-- Witness for claim C3: a non-empty remote key is installed with source
"mockapi"; absent remote with a non-empty env value installs it with source
"env"; both absent exits with status 1. -/
theorem initKey_fallback_order_witness :
    initKey (some "remoteKey") none = KeyInit.ok "remoteKey" "mockapi" ∧
    initKey none (some "envKey") = KeyInit.ok "envKey" "env" ∧
    initKey none none = KeyInit.halt 1 := by
  refine ⟨?_, ?_, ?_⟩
  · exact (initKey_fallback_order (some "remoteKey") none).1 "remoteKey" rfl (by decide)
  · exact (initKey_fallback_order none (some "envKey")).2.1 (Or.inl rfl) "envKey" rfl
      (by decide)
  · exact (initKey_fallback_order none none).2.2.1 (Or.inl rfl) (Or.inl rfl)

/-! ## Intent handler lemmas -/

theorem lookupField_nil (k : String) : lookupField [] k = none := rfl

theorem lookupField_cons_pos (p : String × Json) (ps : List (String × Json))
    (k : String) (h : p.1 = k) : lookupField (p :: ps) k = some p.2 := by
  simp [lookupField, List.find?, h]

theorem lookupField_cons_neg (p : String × Json) (ps : List (String × Json))
    (k : String) (h : ¬p.1 = k) : lookupField (p :: ps) k = lookupField ps k := by
  simp [lookupField, List.find?, h]

theorem lookupField_map_overwrite (fs : List (String × Json)) (k : String) (v : Json)
    (ha : fs.any (fun p => p.1 = k) = true) :
    lookupField (fs.map (fun p => if p.1 = k then (k, v) else p)) k = some v := by
  induction fs with
  | nil => simp at ha
  | cons p ps ih =>
    by_cases hp : p.1 = k
    · rw [List.map_cons, if_pos hp]
      exact lookupField_cons_pos _ _ _ rfl
    · rw [List.map_cons, if_neg hp, lookupField_cons_neg _ _ _ hp]
      refine ih ?_
      simpa [List.any_cons, hp] using ha

theorem lookupField_append_single (fs : List (String × Json)) (k : String) (v : Json)
    (ha : fs.any (fun p => p.1 = k) = false) :
    lookupField (fs ++ [(k, v)]) k = some v := by
  induction fs with
  | nil => exact lookupField_cons_pos _ _ _ rfl
  | cons p ps ih =>
    rw [List.any_cons] at ha
    simp only [Bool.or_eq_false_iff, decide_eq_false_iff_not] at ha
    rw [List.cons_append, lookupField_cons_neg _ _ _ ha.1]
    exact ih ha.2

theorem lookupField_setField_self (fs : List (String × Json)) (k : String) (v : Json) :
    lookupField (setField fs k v) k = some v := by
  unfold setField
  by_cases ha : fs.any (fun p => p.1 = k)
  · rw [if_pos ha]
    exact lookupField_map_overwrite fs k v ha
  · rw [if_neg ha]
    refine lookupField_append_single fs k v ?_
    rw [← Bool.not_eq_true]
    exact ha

theorem lookupField_map_other (fs : List (String × Json)) (k k2 : String)
    (v : Json) (h : ¬k = k2) :
    lookupField (fs.map (fun p => if p.1 = k2 then (k2, v) else p)) k =
      lookupField fs k := by
  induction fs with
  | nil => rfl
  | cons p ps ih =>
    by_cases hp : p.1 = k2
    · rw [List.map_cons, if_pos hp]
      have hpk : ¬p.1 = k := fun hc => h (hc ▸ hp)
      rw [lookupField_cons_neg ((k2, v)) _ _ (fun hc => h hc.symm),
        lookupField_cons_neg _ _ _ hpk]
      exact ih
    · rw [List.map_cons, if_neg hp]
      by_cases hpk : p.1 = k
      · rw [lookupField_cons_pos _ _ _ hpk, lookupField_cons_pos _ _ _ hpk]
      · rw [lookupField_cons_neg _ _ _ hpk, lookupField_cons_neg _ _ _ hpk]
        exact ih

theorem lookupField_append_other (fs : List (String × Json)) (k k2 : String)
    (v : Json) (h : ¬k = k2) :
    lookupField (fs ++ [(k2, v)]) k = lookupField fs k := by
  induction fs with
  | nil =>
    rw [List.nil_append, lookupField_cons_neg ((k2, v)) _ _ (fun hc => h hc.symm)]
  | cons p ps ih =>
    by_cases hpk : p.1 = k
    · rw [List.cons_append, lookupField_cons_pos _ _ _ hpk,
        lookupField_cons_pos _ _ _ hpk]
    · rw [List.cons_append, lookupField_cons_neg _ _ _ hpk,
        lookupField_cons_neg _ _ _ hpk]
      exact ih

theorem lookupField_setField_other (fs : List (String × Json)) (k k2 : String)
    (v : Json) (h : ¬k = k2) :
    lookupField (setField fs k2 v) k = lookupField fs k := by
  unfold setField
  by_cases ha : fs.any (fun p => p.1 = k2)
  · rw [if_pos ha]
    exact lookupField_map_other fs k k2 v h
  · rw [if_neg ha]
    exact lookupField_append_other fs k k2 v h

theorem lookupField_command_core (f2 fs : List (String × Json))
    (h : lookupField f2 "command" = lookupField fs "command") :
    lookupField (match lookupField f2 "command" with
      | some (.str _) => f2
      | _ => setField f2 "command" Json.null) "command" =
      some (match lookupField fs "command" with
        | some (.str s) => Json.str s
        | _ => Json.null) := by
  rw [← h]
  cases hcmd : lookupField f2 "command" with
  | none => rw [lookupField_setField_self]
  | some v =>
    cases v with
    | str s => exact hcmd
    | null => rw [lookupField_setField_self]
    | bool b => rw [lookupField_setField_self]
    | num q => rw [lookupField_setField_self]
    | arr xs => rw [lookupField_setField_self]
    | obj fo => rw [lookupField_setField_self]

theorem lookupField_confidence_core (f2 : List (String × Json)) (v : Json)
    (h : lookupField f2 "confidence" = some v) :
    lookupField (match lookupField f2 "command" with
      | some (.str _) => f2
      | _ => setField f2 "command" Json.null) "confidence" = some v := by
  cases hcmd : lookupField f2 "command" with
  | none => rw [lookupField_setField_other _ _ _ _ (by decide)]; exact h
  | some w =>
    cases w with
    | str s => exact h
    | null => rw [lookupField_setField_other _ _ _ _ (by decide)]; exact h
    | bool b => rw [lookupField_setField_other _ _ _ _ (by decide)]; exact h
    | num q => rw [lookupField_setField_other _ _ _ _ (by decide)]; exact h
    | arr xs => rw [lookupField_setField_other _ _ _ _ (by decide)]; exact h
    | obj fo => rw [lookupField_setField_other _ _ _ _ (by decide)]; exact h

theorem v1Fields_command (fs : List (String × Json)) :
    lookupField (v1Fields fs) "command" =
      some (match lookupField fs "command" with
        | some (.str s) => Json.str s
        | _ => Json.null) := by
  simp only [v1Fields]
  have h1 : lookupField (setField fs "source" (Json.str "openai")) "command" =
      lookupField fs "command" := lookupField_setField_other _ _ _ _ (by decide)
  cases hconf : lookupField (setField fs "source" (Json.str "openai")) "confidence" with
  | none =>
    exact lookupField_command_core _ fs
      (by rw [lookupField_setField_other _ _ _ _ (by decide)]; exact h1)
  | some cv =>
    cases cv with
    | num q => exact lookupField_command_core _ fs h1
    | null =>
      exact lookupField_command_core _ fs
        (by rw [lookupField_setField_other _ _ _ _ (by decide)]; exact h1)
    | bool b =>
      exact lookupField_command_core _ fs
        (by rw [lookupField_setField_other _ _ _ _ (by decide)]; exact h1)
    | str s =>
      exact lookupField_command_core _ fs
        (by rw [lookupField_setField_other _ _ _ _ (by decide)]; exact h1)
    | arr xs =>
      exact lookupField_command_core _ fs
        (by rw [lookupField_setField_other _ _ _ _ (by decide)]; exact h1)
    | obj fo =>
      exact lookupField_command_core _ fs
        (by rw [lookupField_setField_other _ _ _ _ (by decide)]; exact h1)

theorem v1Fields_confidence (fs : List (String × Json)) :
    lookupField (v1Fields fs) "confidence" =
      some (match lookupField fs "confidence" with
        | some (.num q) => Json.num q
        | _ => Json.num half) := by
  simp only [v1Fields]
  have h1 : lookupField (setField fs "source" (Json.str "openai")) "confidence" =
      lookupField fs "confidence" := lookupField_setField_other _ _ _ _ (by decide)
  cases hconf : lookupField (setField fs "source" (Json.str "openai")) "confidence" with
  | none =>
    have hfs : lookupField fs "confidence" = none := by rw [← h1]; exact hconf
    rw [hfs]
    exact lookupField_confidence_core _ _ (lookupField_setField_self _ _ _)
  | some cv =>
    have hfs : lookupField fs "confidence" = some cv := by rw [← h1]; exact hconf
    rw [hfs]
    cases cv with
    | num q => exact lookupField_confidence_core _ _ hconf
    | null => exact lookupField_confidence_core _ _ (lookupField_setField_self _ _ _)
    | bool b => exact lookupField_confidence_core _ _ (lookupField_setField_self _ _ _)
    | str s => exact lookupField_confidence_core _ _ (lookupField_setField_self _ _ _)
    | arr xs => exact lookupField_confidence_core _ _ (lookupField_setField_self _ _ _)
    | obj fo => exact lookupField_confidence_core _ _ (lookupField_setField_self _ _ _)

theorem intentRequestOk_mk (t : String) (c : Json) (cs : List Json) :
    intentRequestOk (mkIntentBody t (c :: cs)) = true := rfl

theorem intentCommands_mk (t : String) (cs : List Json) :
    intentCommands (mkIntentBody t cs) = cs := rfl

theorem intentHandler2_ok (body out : Json) (hb : intentRequestOk body = true)
    (hout : out ≠ Json.null) :
    intentHandler2 body (.content (some out)) =
      .ok ⟨intentCval ((intentCommands body).map jsToString) out, intentQval out,
        "openai"⟩ := by
  unfold intentHandler2
  rw [hb]
  cases out with
  | null => exact absurd rfl hout
  | bool b => rfl
  | num q => rfl
  | str s => rfl
  | arr xs => rfl
  | obj fs => rfl

/-! ## Claim C4 -/

/-- Claim C4, counterexample: for the request with commands lights_on and
lights_off, when the upstream returns the out-of-list command lights_dim,
the variant-1 handler (cited by the claim) answers 200 with command
lights_dim instead of replacing it by null: it has no whitelist check. -/
theorem intent_whitelist_v1_cx :
    (match intentHandler1 (mkIntentBody "turn on the light"
        [Json.str "lights_on", Json.str "lights_off"])
        (Upstream.content (some (Json.obj [("command", Json.str "lights_dim")]))) with
      | IntentResp1.ok b => jsonGetProp b "command"
      | IntentResp1.err _ _ => none) = some (Json.str "lights_dim") ∧
    ("lights_dim" ∉ (["lights_on", "lights_off"] : List String)) :=
  ⟨rfl, by decide⟩

/-- Claim C4, amended: in variant 2 the returned command is included in the
response exactly when it is a string equal to a member of the string
coercions of the request's commands list, and is replaced by null
otherwise; variant 1 performs no whitelist check and only replaces a
non-string command by null, passing any string command through. -/
theorem intent_command_whitelist (t : String) (cs : List Json) (out : Json)
    (hcs : cs ≠ []) (hout : out ≠ Json.null) :
    (∃ c q, intentHandler2 (mkIntentBody t cs) (.content (some out)) =
        .ok ⟨c, q, "openai"⟩ ∧
      ∀ s, c = some s ↔
        (jsonGetProp out "command" = some (.str s) ∧ s ∈ cs.map jsToString)) ∧
    (∀ fields, ∃ b,
      intentHandler1 (mkIntentBody t cs) (.content (some (.obj fields))) = .ok b ∧
      jsonGetProp b "command" =
        some (match lookupField fields "command" with
          | some (.str s) => Json.str s
          | _ => Json.null)) := by
  obtain ⟨c0, cs0, rfl⟩ : ∃ c0 cs0, cs = c0 :: cs0 := by
    cases cs with
    | nil => exact absurd rfl hcs
    | cons a b => exact ⟨a, b, rfl⟩
  constructor
  · refine ⟨intentCval ((intentCommands (mkIntentBody t (c0 :: cs0))).map jsToString)
      out, intentQval out, intentHandler2_ok _ _ (intentRequestOk_mk t c0 cs0) hout, ?_⟩
    intro s
    rw [intentCommands_mk]
    unfold intentCval
    cases hcmd : jsonGetProp out "command" with
    | none => simp
    | some v =>
      cases v with
      | str s0 =>
        by_cases hmem : ((c0 :: cs0).map jsToString).contains s0
        · simp only [Option.getD_some, if_pos hmem]
          constructor
          · intro h
            have hs : s0 = s := by simpa using h
            subst hs
            exact ⟨rfl, List.elem_iff.mp hmem⟩
          · intro h
            have hs : s0 = s := by simpa using h.1
            subst hs
            rfl
        · simp only [Option.getD_some, if_neg hmem]
          constructor
          · intro h
            exact absurd h (by simp)
          · intro h
            have hs : s0 = s := by simpa using h.1
            subst hs
            exact absurd (List.elem_iff.mpr h.2) hmem
      | null => simp
      | bool b => simp
      | num q => simp
      | arr xs => simp
      | obj fo => simp
  · intro fields
    exact ⟨Json.obj (v1Fields fields), rfl, v1Fields_command fields⟩

/-- Witness for claim C4: at the request with commands lights_on and
lights_off and upstream command lights_dim, variant 2 answers with command
null; with upstream command lights_on it answers with command lights_on;
and variant 1 passes lights_dim through. -/
theorem intent_command_whitelist_witness :
    (∃ q, intentHandler2 (mkIntentBody "turn on the light"
        [Json.str "lights_on", Json.str "lights_off"])
        (.content (some (Json.obj [("command", Json.str "lights_dim")]))) =
      IntentResp2.ok ⟨none, q, "openai"⟩) ∧
    (∃ q, intentHandler2 (mkIntentBody "turn on the light"
        [Json.str "lights_on", Json.str "lights_off"])
        (.content (some (Json.obj [("command", Json.str "lights_on")]))) =
      IntentResp2.ok ⟨some "lights_on", q, "openai"⟩) := by
  constructor
  · obtain ⟨⟨c, q, heq, hiff⟩, -⟩ := intent_command_whitelist "turn on the light"
      [Json.str "lights_on", Json.str "lights_off"]
      (Json.obj [("command", Json.str "lights_dim")])
      (fun h => List.noConfusion h) (fun h => Json.noConfusion h)
    have hc : c = none := by
      cases c with
      | none => rfl
      | some s =>
        have hps := (hiff s).mp rfl
        have h0 : jsonGetProp (Json.obj [("command", Json.str "lights_dim")])
            "command" = some (Json.str "lights_dim") := rfl
        have hs : s = "lights_dim" := by
          rw [h0] at hps
          have := hps.1
          simpa using this.symm
        subst hs
        exact absurd hps.2 (by decide)
    rw [hc] at heq
    exact ⟨q, heq⟩
  · obtain ⟨⟨c, q, heq, hiff⟩, -⟩ := intent_command_whitelist "turn on the light"
      [Json.str "lights_on", Json.str "lights_off"]
      (Json.obj [("command", Json.str "lights_on")])
      (fun h => List.noConfusion h) (fun h => Json.noConfusion h)
    have hc : c = some "lights_on" := (hiff "lights_on").mpr ⟨rfl, by decide⟩
    rw [hc] at heq
    exact ⟨q, heq⟩

/-! ## Claim C5 -/

/-- Claim C5, counterexample: an upstream confidence of the number 0 is not
preserved by the variant-2 handler; the falsy-coercion check replaces it by
0.5. -/
theorem intent_confidence_zero_cx :
    intentHandler2 (mkIntentBody "set" [Json.str "lights_on"])
      (.content (some (Json.obj [("command", Json.str "lights_on"),
        ("confidence", Json.num 0)]))) =
      IntentResp2.ok ⟨some "lights_on", half, "openai"⟩ ∧ half ≠ 0 :=
  ⟨rfl, by decide⟩

/-- Claim C5, amended: in variant 2 the confidence is the Number() coercion
of the upstream value when that coercion is a non-zero number, and 0.5
exactly when the value is absent (the destructuring default), not coercible
(NaN), or coerces to 0; in variant 1 there is no coercion: a numeric
upstream confidence (including 0) is preserved and any non-number is
replaced by 0.5. -/
theorem intent_confidence_default (t : String) (cs : List Json) (out : Json)
    (hcs : cs ≠ []) (hout : out ≠ Json.null) :
    (∃ c q, intentHandler2 (mkIntentBody t cs) (.content (some out)) =
        .ok ⟨c, q, "openai"⟩ ∧
      (∀ q0, jsToNumber ((jsonGetProp out "confidence").getD (.num half)) =
          .num q0 → q0 ≠ 0 → q = q0) ∧
      ((jsToNumber ((jsonGetProp out "confidence").getD (.num half)) = .nan ∨
        jsToNumber ((jsonGetProp out "confidence").getD (.num half)) = .num 0) →
        q = half)) ∧
    (∀ fields, ∃ b,
      intentHandler1 (mkIntentBody t cs) (.content (some (.obj fields))) = .ok b ∧
      jsonGetProp b "confidence" =
        some (match lookupField fields "confidence" with
          | some (.num q) => Json.num q
          | _ => Json.num half)) := by
  obtain ⟨c0, cs0, rfl⟩ : ∃ c0 cs0, cs = c0 :: cs0 := by
    cases cs with
    | nil => exact absurd rfl hcs
    | cons a b => exact ⟨a, b, rfl⟩
  constructor
  · refine ⟨intentCval ((intentCommands (mkIntentBody t (c0 :: cs0))).map jsToString)
      out, intentQval out, intentHandler2_ok _ _ (intentRequestOk_mk t c0 cs0) hout,
      ?_, ?_⟩
    · intro q0 hq hq0
      unfold intentQval
      rw [hq]
      simp [hq0]
    · intro hd
      unfold intentQval
      cases hd with
      | inl h => rw [h]
      | inr h => rw [h]; simp
  · intro fields
    exact ⟨Json.obj (v1Fields fields), rfl, v1Fields_confidence fields⟩

/-- Witness for claim C5: an absent upstream confidence yields 0.5, and a
numeric upstream confidence 1 is preserved, in variant 2. -/
theorem intent_confidence_default_witness :
    (∃ c, intentHandler2 (mkIntentBody "turn on the light" [Json.str "lights_on"])
      (.content (some (Json.obj [("command", Json.str "lights_on")]))) =
      IntentResp2.ok ⟨c, half, "openai"⟩) ∧
    (∃ c, intentHandler2 (mkIntentBody "x" [Json.str "a"])
      (.content (some (Json.obj [("confidence", Json.num 1)]))) =
      IntentResp2.ok ⟨c, 1, "openai"⟩) := by
  constructor
  · obtain ⟨⟨c, q, heq, himp, hdef⟩, -⟩ := intent_confidence_default
      "turn on the light" [Json.str "lights_on"]
      (Json.obj [("command", Json.str "lights_on")])
      (fun h => List.noConfusion h) (fun h => Json.noConfusion h)
    have hq : q = half := himp half rfl (by decide)
    rw [hq] at heq
    exact ⟨c, heq⟩
  · obtain ⟨⟨c, q, heq, himp, hdef⟩, -⟩ := intent_confidence_default
      "x" [Json.str "a"] (Json.obj [("confidence", Json.num 1)])
      (fun h => List.noConfusion h) (fun h => Json.noConfusion h)
    have hq : q = 1 := himp 1 rfl (by decide)
    rw [hq] at heq
    exact ⟨c, heq⟩

/-! ## Claim C6 -/

/-- Claim C6, counterexample: on unparseable upstream content, the
variant-1 handler (cited by the claim) answers the server error 500
intent_failed instead of a 200 with defaulted fields: its JSON.parse is not
guarded by an inner catch. -/
theorem intent_parse_fail_v1_cx :
    intentHandler1 (mkIntentBody "turn on the light"
        [Json.str "lights_on", Json.str "lights_off"]) (.content none) =
      IntentResp1.err 500 "intent_failed" := rfl

/-- Claim C6, amended: on unparseable upstream content variant 2 treats the
result as the empty object and answers 200 with command null, confidence
0.5 and source openai; variant 1 lets the parse error reach the outer catch
and answers 500 intent_failed. -/
theorem intent_parse_fail_behavior (t : String) (cs : List Json) (hcs : cs ≠ []) :
    intentHandler2 (mkIntentBody t cs) (.content none) =
      IntentResp2.ok ⟨none, half, "openai"⟩ ∧
    intentHandler1 (mkIntentBody t cs) (.content none) =
      IntentResp1.err 500 "intent_failed" := by
  obtain ⟨c0, cs0, rfl⟩ : ∃ c0 cs0, cs = c0 :: cs0 := by
    cases cs with
    | nil => exact absurd rfl hcs
    | cons a b => exact ⟨a, b, rfl⟩
  exact ⟨rfl, rfl⟩

/-- Witness for claim C6 at a concrete request. -/
theorem intent_parse_fail_behavior_witness :
    intentHandler2 (mkIntentBody "turn on the light" [Json.str "lights_on"])
      (.content none) = IntentResp2.ok ⟨none, half, "openai"⟩ ∧
    intentHandler1 (mkIntentBody "turn on the light" [Json.str "lights_on"])
      (.content none) = IntentResp1.err 500 "intent_failed" :=
  intent_parse_fail_behavior "turn on the light" [Json.str "lights_on"]
    (fun h => List.noConfusion h)

/-! ## Claim C7 -/

theorem match_str_eq_true_iff (o : Option Json) :
    (match o with | some (.str _) => true | _ => false) = true ↔
      ∃ s, o = some (Json.str s) := by
  cases o with
  | none => simp
  | some v => cases v <;> simp

theorem match_arr_cons_eq_true_iff (o : Option Json) :
    (match o with | some (.arr (_ :: _)) => true | _ => false) = true ↔
      ∃ c cs, o = some (Json.arr (c :: cs)) := by
  cases o with
  | none => simp
  | some v =>
    cases v with
    | arr xs => cases xs <;> simp
    | null => simp
    | bool b => simp
    | num q => simp
    | str s => simp
    | obj fs => simp

theorem intentRequestOk_iff_spec (body : Json) :
    intentRequestOk body = true ↔ specIntentValid body := by
  cases body with
  | obj fs =>
    have he : intentRequestOk (Json.obj fs) =
        ((match jsonGetProp (Json.obj fs) "text" with
          | some (.str _) => true | _ => false) &&
         (match jsonGetProp (Json.obj fs) "commands" with
          | some (.arr (_ :: _)) => true | _ => false)) := rfl
    rw [he, Bool.and_eq_true, match_str_eq_true_iff, match_arr_cons_eq_true_iff]
    exact Iff.rfl
  | null =>
    have he : intentRequestOk Json.null = false := rfl
    rw [he]
    unfold specIntentValid
    have h2 : jsonGetProp Json.null "text" = none := rfl
    rw [h2]
    simp
  | bool b =>
    cases b with
    | false =>
      have he : intentRequestOk (Json.bool false) = false := rfl
      rw [he]
      unfold specIntentValid
      have h2 : jsonGetProp (Json.bool false) "text" = none := rfl
      rw [h2]
      simp
    | true =>
      have he : intentRequestOk (Json.bool true) = false := rfl
      rw [he]
      unfold specIntentValid
      have h2 : jsonGetProp (Json.bool true) "text" = none := rfl
      rw [h2]
      simp
  | num q =>
    have he : intentRequestOk (Json.num q) = false := by
      by_cases hq : q = 0
      · subst hq; rfl
      · unfold intentRequestOk
        have ht : jsTruthy (Json.num q) = true := by simp [jsTruthy, hq]
        simp only [ht, if_true]
        rfl
    rw [he]
    unfold specIntentValid
    have h2 : jsonGetProp (Json.num q) "text" = none := rfl
    rw [h2]
    simp
  | str s =>
    have he : intentRequestOk (Json.str s) = false := by
      by_cases hs : s = ""
      · subst hs; rfl
      · unfold intentRequestOk
        have ht : jsTruthy (Json.str s) = true := by simp [jsTruthy, hs]
        simp only [ht, if_true]
        rfl
    rw [he]
    unfold specIntentValid
    have h2 : jsonGetProp (Json.str s) "text" = none := rfl
    rw [h2]
    simp
  | arr xs =>
    have he : intentRequestOk (Json.arr xs) = false := rfl
    rw [he]
    unfold specIntentValid
    have h2 : jsonGetProp (Json.arr xs) "text" = none := rfl
    rw [h2]
    simp

theorem intentHandler2_badreq_iff (body : Json) (up : Upstream) :
    intentHandler2 body up = .err 400 "bad_request" ↔
      intentRequestOk body = false := by
  cases hok : intentRequestOk body with
  | false => simp [intentHandler2, hok]
  | true =>
    constructor
    · intro h
      exfalso
      cases up with
      | throws => simp [intentHandler2, hok] at h
      | content p =>
        simp only [intentHandler2, hok, if_true] at h
        cases hgd : p.getD (Json.obj []) with
        | null => rw [hgd] at h; simp at h
        | bool b => rw [hgd] at h; simp at h
        | num q => rw [hgd] at h; simp at h
        | str s => rw [hgd] at h; simp at h
        | arr xs => rw [hgd] at h; simp at h
        | obj fs => rw [hgd] at h; simp at h
    · intro h
      exact absurd h (by decide)

theorem intentHandler1_badreq_iff (body : Json) (up : Upstream) :
    intentHandler1 body up = .err 400 "bad_request" ↔
      intentRequestOk body = false := by
  cases hok : intentRequestOk body with
  | false => simp [intentHandler1, hok]
  | true =>
    constructor
    · intro h
      exfalso
      cases up with
      | throws => simp [intentHandler1, hok] at h
      | content p =>
        simp only [intentHandler1, hok, if_true] at h
        cases p with
        | none => simp at h
        | some out =>
          cases out with
          | null => simp at h
          | bool b => simp at h
          | num q => simp at h
          | str s => simp at h
          | arr xs => simp at h
          | obj fs => simp at h
    · intro h
      exact absurd h (by decide)

/-- Claim C7, confirmed: both variants answer 400 with code bad_request
exactly when the request body has no string text field or no non-empty
array commands field; and an empty-string text with a non-empty commands
array passes validation. -/
theorem intent_validation_iff (body : Json) (up : Upstream) :
    (intentHandler2 body up = .err 400 "bad_request" ↔ ¬specIntentValid body) ∧
    (intentHandler1 body up = .err 400 "bad_request" ↔ ¬specIntentValid body) ∧
    (∀ c cs, specIntentValid (mkIntentBody "" (c :: cs))) := by
  refine ⟨?_, ?_, ?_⟩
  · rw [intentHandler2_badreq_iff, ← intentRequestOk_iff_spec]
    cases intentRequestOk body <;> simp
  · rw [intentHandler1_badreq_iff, ← intentRequestOk_iff_spec]
    cases intentRequestOk body <;> simp
  · intro c cs
    exact ⟨⟨"", rfl⟩, ⟨c, cs, rfl⟩⟩

/-! ## Claim C8 -/

/-- Claim C8, counterexample: the variant-1 health handler (cited by the
claim) carries no keySource field at all; it reports hasKey instead, so the
response body is not of the shape the claim states. -/
theorem health_keySource_v1_cx :
    jsonGetProp (healthHandler1 (Json.num 5500) (some "sk-test")) "keySource" =
      none ∧
    jsonGetProp (healthHandler1 (Json.num 5500) (some "sk-test")) "hasKey" =
      some (Json.bool true) :=
  ⟨rfl, rfl⟩

/-- Claim C8, amended: the variant-2 health response is ok true, the port,
and a keySource equal to the bootstrap source tag when that tag is truthy
and null otherwise; the variant-1 health response is ok true, the port, and
hasKey reporting the truthiness of the environment credential, with no
keySource field. -/
theorem health_shape (port : Json) (keySource envKey : Option String) :
    jsonGetProp (healthHandler2 port keySource) "ok" = some (Json.bool true) ∧
    jsonGetProp (healthHandler2 port keySource) "port" = some port ∧
    jsonGetProp (healthHandler2 port keySource) "keySource" =
      some (match keySource with
        | some s => if s != "" then Json.str s else Json.null
        | none => Json.null) ∧
    jsonGetProp (healthHandler1 port envKey) "ok" = some (Json.bool true) ∧
    jsonGetProp (healthHandler1 port envKey) "port" = some port ∧
    jsonGetProp (healthHandler1 port envKey) "hasKey" =
      some (Json.bool (match envKey with | some s => s != "" | none => false)) ∧
    jsonGetProp (healthHandler1 port envKey) "keySource" = none :=
  ⟨rfl, rfl, rfl, rfl, rfl, rfl, rfl⟩

/-! ## Claim C9 -/

/-- Claim C9, confirmed: a transcription request carrying no audio file is
answered 400 with code no_audio, with no temp-file write attempt and no
call to the transcription service, whatever the outcomes of those actions
would have been.  The handler is textually identical in both variants. -/
theorem transcribe_no_audio (outcome : TranscribeOutcome) :
    transcribeHandler none outcome =
      ⟨TranscribeResp.err 400 "no_audio", 0, 0⟩ := rfl
